import Mathlib

/-
Verification of the stm32ctl protocol engine: a shallow embedding of
src/stm32ctl/connection.py (framing, checksum, ACK/NACK) and
src/stm32ctl/client.py (capability gating, chunked read/write) as pure
Lean functions over an explicit transport state, together with theorems
settling the specified properties.

The transport is modelled as the pair of the byte stream still to be
read from the device (input) and the bytes written so far (sent).
Python exceptions are modelled as a Fault sum type returned in Except;
an operation returns its updated transport alongside the result, so
that "no byte was written" is expressible as the transport being
returned unchanged.
-/

namespace Stm32ctl

/-- Wire command opcodes: the CmdType enum of connection.py. -/
inductive CmdType where
  | GET_COMMANDS
  | GET_PROTECTION
  | GET_CHIP_ID
  | READ
  | EXECUTE
  | WRITE
  | ERASE
  | ERASE_EXTENDED
  | SPECIAL
  | SPECIAL_EXTENDED
  | PROTECT_READ
  | UNPROTECT_READ
  | PROTECT_WRITE
  | UNPROTECT_WRITE
  | CHECK_CRC
  deriving DecidableEq, Repr

/-- The one-byte value of each opcode, as listed in the CmdType enum. -/
def CmdType.val : CmdType → Nat
  | .GET_COMMANDS => 0x00
  | .GET_PROTECTION => 0x01
  | .GET_CHIP_ID => 0x02
  | .READ => 0x11
  | .EXECUTE => 0x21
  | .WRITE => 0x31
  | .ERASE => 0x43
  | .ERASE_EXTENDED => 0x44
  | .SPECIAL => 0x50
  | .SPECIAL_EXTENDED => 0x51
  | .PROTECT_READ => 0x82
  | .UNPROTECT_READ => 0x92
  | .PROTECT_WRITE => 0x63
  | .UNPROTECT_WRITE => 0x73
  | .CHECK_CRC => 0xA1

/-- The exceptions raised by connection.py and client.py, as a sum type:
nack and unknownResponse are the two protocol faults of receive_ack,
invalidArgument stands for every ValueError site, capabilityMissing for
the client's not-supported checks naming the missing command type,
notSupported for NotImplementedError, and transportFailure for a read
on the serial stream that cannot be served. -/
inductive Fault where
  | transportFailure
  | nack
  | unknownResponse (b : Nat)
  | invalidArgument
  | capabilityMissing (c : CmdType)
  | notSupported
  deriving DecidableEq, Repr

/-- The serial transport: bytes still to be read from the device, and
bytes written to the device so far (in order). -/
structure Transport where
  input : List Nat
  sent : List Nat
  deriving DecidableEq, Repr

/-- Split off exactly n leading elements, or fail when fewer remain. -/
def takeExact : Nat → List Nat → Option (List Nat × List Nat)
  | 0, xs => some ([], xs)
  | _ + 1, [] => none
  | n + 1, x :: xs => (takeExact n xs).map (fun p => (x :: p.1, p.2))

/-- Reading n bytes from the serial stream (conn.read(n) in the source):
consumes exactly n bytes of input, failing when the stream is short. -/
def Transport.read (t : Transport) (n : Nat) : Option (List Nat × Transport) :=
  (takeExact n t.input).map (fun p => (p.1, ⟨p.2, t.sent⟩))

/-- Writing bytes to the serial stream (conn.write in the source). -/
def Transport.write (t : Transport) (bs : List Nat) : Transport :=
  ⟨t.input, t.sent ++ bs⟩

/-- The checksum byte of the generator _get_data_with_checksum in
connection.py: the running XOR of the body bytes, each step masked with
0xFF, and, when the body is a single byte, the bitwise complement of the
accumulator (the source writes 0xFF & ~crc, which on a value already
below 256 equals 0xFF ^^^ crc). -/
def checksum8 (data : List Nat) : Nat :=
  let crc := data.foldl (fun crc i => (crc ^^^ i) % 256) 0
  if data.length < 2 then 0xFF ^^^ crc else crc

/-- The generator _get_data_with_checksum of connection.py, fully
consumed (the source consumes it with bytes(...) before writing): the
body bytes followed by the checksum byte, failing on an empty body with
the ValueError raised when count < 1. -/
def _get_data_with_checksum (data : List Nat) : Except Fault (List Nat) :=
  if data.length < 1 then .error .invalidArgument
  else .ok (data ++ [checksum8 data])

/-- Connection._receive_ack: reads one byte; NACK on 0x1F, unknown
response on anything other than 0x79, silent success on 0x79. -/
def _receive_ack (t : Transport) : Except Fault Unit × Transport :=
  match t.read 1 with
  | none => (.error .transportFailure, t)
  | some (res, t1) =>
    if res = [0x1F] then (.error .nack, t1)
    else if res ≠ [0x79] then (.error (.unknownResponse (res.headD 0)), t1)
    else (.ok (), t1)

/-- Connection._send: builds the body-plus-checksum frame (failing on an
empty body before anything is written), writes it, then awaits ACK. -/
def _send (data : List Nat) (t : Transport) : Except Fault Unit × Transport :=
  match _get_data_with_checksum data with
  | .error e => (.error e, t)
  | .ok frame => _receive_ack (t.write frame)

/-- struct.pack of format >I: the four big-endian bytes of an address
(all callers in the repository pass addresses below 2 ^ 32). -/
def u32be (n : Nat) : List Nat :=
  [n / 0x1000000 % 256, n / 0x10000 % 256, n / 0x100 % 256, n % 256]

/-- int.from_bytes with big-endian byte order. -/
def intFromBytesBE (bs : List Nat) : Nat :=
  bs.foldl (fun acc b => acc * 256 + b) 0

/-- struct.unpack of format <H: two bytes as a little-endian 16-bit
integer. -/
def unpackLE16 (bs : List Nat) : Nat :=
  bs.getD 0 0 + 256 * bs.getD 1 0

/-- Connection.get_chip_id: sends the opcode frame, reads a count byte,
reads count + 1 chip id bytes (big-endian), then awaits ACK. -/
def Connection.get_chip_id (t : Transport) : Except Fault Nat × Transport :=
  match _send [CmdType.GET_CHIP_ID.val] t with
  | (.error e, t1) => (.error e, t1)
  | (.ok _, t1) =>
    match t1.read 1 with
    | none => (.error .transportFailure, t1)
    | some (countBytes, t2) =>
      match t2.read (countBytes.headD 0 + 1) with
      | none => (.error .transportFailure, t2)
      | some (chipIdBytes, t3) =>
        match _receive_ack t3 with
        | (.error e, t4) => (.error e, t4)
        | (.ok _, t4) => (.ok (intFromBytesBE chipIdBytes), t4)

/-- Connection.read: rejects sizes above 0x100, then sends the opcode
frame, the 4-byte big-endian address frame and the size-minus-one frame
(each checksummed and ACKed), and reads size raw data bytes with no
trailing ACK. The size-minus-one byte uses truncated subtraction; every
caller in the repository passes 1 <= size (the source would fail
building bytes of -1 for size 0). -/
def Connection.read (start_address size : Nat) (t : Transport) :
    Except Fault (List Nat) × Transport :=
  if 0x100 < size then (.error .invalidArgument, t)
  else
    match _send [CmdType.READ.val] t with
    | (.error e, t1) => (.error e, t1)
    | (.ok _, t1) =>
      match _send (u32be start_address) t1 with
      | (.error e, t2) => (.error e, t2)
      | (.ok _, t2) =>
        match _send [size - 1] t2 with
        | (.error e, t3) => (.error e, t3)
        | (.ok _, t3) =>
          match t3.read size with
          | none => (.error .transportFailure, t3)
          | some (data, t4) => (.ok data, t4)

/-- Connection.write: rejects data of length 0 or above 0x100, then
sends the opcode frame, the address frame, and one frame whose body is
the length-minus-one byte followed by all data bytes (a single checksum
covers both). -/
def Connection.write (start_address : Nat) (data : List Nat) (t : Transport) :
    Except Fault Unit × Transport :=
  if 0x100 < data.length ∨ data.length < 1 then (.error .invalidArgument, t)
  else
    match _send [CmdType.WRITE.val] t with
    | (.error e, t1) => (.error e, t1)
    | (.ok _, t1) =>
      match _send (u32be start_address) t1 with
      | (.error e, t2) => (.error e, t2)
      | (.ok _, t2) => _send ((data.length - 1) :: data) t2

/-- Connection.execute: opcode frame then address frame. -/
def Connection.execute (start_address : Nat) (t : Transport) :
    Except Fault Unit × Transport :=
  match _send [CmdType.EXECUTE.val] t with
  | (.error e, t1) => (.error e, t1)
  | (.ok _, t1) => _send (u32be start_address) t1

/-- Connection.erase: with an explicit page list, first rejects lists of
fewer than 1 or more than 0xFF pages, then sends the opcode frame
followed by a frame whose body is the count-minus-one byte and the page
bytes; with pages = none, sends the opcode frame followed by the
sentinel frame whose body is the single byte 0xFF. -/
def Connection.erase (pages : Option (List Nat)) (t : Transport) :
    Except Fault Unit × Transport :=
  match pages with
  | some ps =>
    if ps.length < 1 ∨ 0xFF < ps.length then (.error .invalidArgument, t)
    else
      match _send [CmdType.ERASE.val] t with
      | (.error e, t1) => (.error e, t1)
      | (.ok _, t1) => _send ((ps.length - 1) :: ps) t1
  | none =>
    match _send [CmdType.ERASE.val] t with
    | (.error e, t1) => (.error e, t1)
    | (.ok _, t1) => _send [0xFF] t1

/-- Connection.protect_read: opcode frame, then one further ACK. -/
def Connection.protect_read (t : Transport) : Except Fault Unit × Transport :=
  match _send [CmdType.PROTECT_READ.val] t with
  | (.error e, t1) => (.error e, t1)
  | (.ok _, t1) => _receive_ack t1

/-- Connection.unprotect_read: opcode frame, then one further ACK. -/
def Connection.unprotect_read (t : Transport) : Except Fault Unit × Transport :=
  match _send [CmdType.UNPROTECT_READ.val] t with
  | (.error e, t1) => (.error e, t1)
  | (.ok _, t1) => _receive_ack t1

/-- Connection.protect_write raises NotImplementedError unconditionally,
touching nothing. -/
def Connection.protect_write (t : Transport) : Except Fault Unit × Transport :=
  (.error .notSupported, t)

/-- Connection.unprotect_write: opcode frame, then one further ACK. -/
def Connection.unprotect_write (t : Transport) : Except Fault Unit × Transport :=
  match _send [CmdType.UNPROTECT_WRITE.val] t with
  | (.error e, t1) => (.error e, t1)
  | (.ok _, t1) => _receive_ack t1

/-- The Info named tuple of client.py. -/
structure Info where
  version : Nat
  chip_id : Nat
  device_id : List Nat
  flash_size : Nat
  deriving DecidableEq, Repr

/-- The Protection enum of client.py. -/
inductive Protection where
  | PROTECT_READ
  | UNPROTECT_READ
  | PROTECT_WRITE
  | UNPROTECT_WRITE
  deriving DecidableEq, Repr

/-- Client.get_info: requires GET_CHIP_ID and READ in the discovered
command set, then issues get_chip_id, a 12-byte read at 0x1FFFF7E8
(device id) and a 2-byte read at 0x1FFFF7E0 (flash size register,
little-endian, scaled by 1024 to bytes). -/
def Client.get_info (cmd_types : List CmdType) (version : Nat) (t : Transport) :
    Except Fault Info × Transport :=
  if CmdType.GET_CHIP_ID ∉ cmd_types then
    (.error (.capabilityMissing .GET_CHIP_ID), t)
  else if CmdType.READ ∉ cmd_types then
    (.error (.capabilityMissing .READ), t)
  else
    match Connection.get_chip_id t with
    | (.error e, t1) => (.error e, t1)
    | (.ok chip_id, t1) =>
      match Connection.read 0x1FFFF7E8 12 t1 with
      | (.error e, t2) => (.error e, t2)
      | (.ok device_id, t2) =>
        match Connection.read 0x1FFFF7E0 2 t2 with
        | (.error e, t3) => (.error e, t3)
        | (.ok flash_size_bytes, t3) =>
          (.ok ⟨version, chip_id, device_id, unpackLE16 flash_size_bytes * 1024⟩,
           t3)

/-- Client.set_protection: dispatches on the protection kind, checking
the matching capability first and delegating to the connection method. -/
def Client.set_protection (cmd_types : List CmdType) (p : Protection)
    (t : Transport) : Except Fault Unit × Transport :=
  match p with
  | .PROTECT_READ =>
    if CmdType.PROTECT_READ ∉ cmd_types then
      (.error (.capabilityMissing .PROTECT_READ), t)
    else Connection.protect_read t
  | .UNPROTECT_READ =>
    if CmdType.UNPROTECT_READ ∉ cmd_types then
      (.error (.capabilityMissing .UNPROTECT_READ), t)
    else Connection.unprotect_read t
  | .PROTECT_WRITE =>
    if CmdType.PROTECT_WRITE ∉ cmd_types then
      (.error (.capabilityMissing .PROTECT_WRITE), t)
    else Connection.protect_write t
  | .UNPROTECT_WRITE =>
    if CmdType.UNPROTECT_WRITE ∉ cmd_types then
      (.error (.capabilityMissing .UNPROTECT_WRITE), t)
    else Connection.unprotect_write t

/-- The while loop of Client.read: as long as size is positive, reads a
segment of min size 0x100 bytes, advancing the address and shrinking
size, collecting the segments and, when a progress callback is supplied
(progress = true), recording its invocations (bytes read so far, total)
in order. -/
def Client.readLoop (start_address size read_size total : Nat)
    (progress : Bool) (t : Transport) :
    Except Fault (List Nat) × Transport × List (Nat × Nat) :=
  if size = 0 then (.ok [], t, [])
  else
    match Connection.read start_address (min size 0x100) t with
    | (.error e, t1) => (.error e, t1, [])
    | (.ok segment, t1) =>
      match Client.readLoop (start_address + min size 0x100)
          (size - min size 0x100) (read_size + min size 0x100) total
          progress t1 with
      | (res, t2, calls2) =>
        (res.map (fun r => segment ++ r), t2,
         (if progress then [(read_size + min size 0x100, total)] else [])
           ++ calls2)
termination_by size
decreasing_by omega

/-- Client.read: requires the READ capability, then, when a progress
callback is supplied, invokes it with (0, size) before the loop; the
third component records the progress invocations in order. -/
def Client.read (cmd_types : List CmdType) (start_address size : Nat)
    (progress : Bool) (t : Transport) :
    Except Fault (List Nat) × Transport × List (Nat × Nat) :=
  if CmdType.READ ∉ cmd_types then (.error (.capabilityMissing .READ), t, [])
  else
    match Client.readLoop start_address size 0 size progress t with
    | (res, t1, calls) =>
      (res, t1, (if progress then [(0, size)] else []) ++ calls)

/-- The while loop of Client.write: as long as data remains, writes a
segment of min (remaining length) 0x100 bytes at the running address,
recording progress invocations as in Client.readLoop. -/
def Client.writeLoop (start_address : Nat) (data : List Nat)
    (written_size total : Nat) (progress : Bool) (t : Transport) :
    Except Fault Unit × Transport × List (Nat × Nat) :=
  if data.length = 0 then (.ok (), t, [])
  else
    match Connection.write start_address (data.take (min data.length 0x100))
        t with
    | (.error e, t1) => (.error e, t1, [])
    | (.ok _, t1) =>
      match Client.writeLoop (start_address + min data.length 0x100)
          (data.drop (min data.length 0x100))
          (written_size + min data.length 0x100) total progress t1 with
      | (res, t2, calls2) =>
        (res, t2,
         (if progress then [(written_size + min data.length 0x100, total)]
          else []) ++ calls2)
termination_by data.length
decreasing_by simp; omega

/-- Client.write: requires the WRITE capability, then, when a progress
callback is supplied, invokes it with (0, length) before the loop. -/
def Client.write (cmd_types : List CmdType) (start_address : Nat)
    (data : List Nat) (progress : Bool) (t : Transport) :
    Except Fault Unit × Transport × List (Nat × Nat) :=
  if CmdType.WRITE ∉ cmd_types then (.error (.capabilityMissing .WRITE), t, [])
  else
    match Client.writeLoop start_address data 0 data.length progress t with
    | (res, t1, calls) =>
      (res, t1, (if progress then [(0, data.length)] else []) ++ calls)

/-- Client.erase: requires the ERASE capability, then delegates. -/
def Client.erase (cmd_types : List CmdType) (pages : Option (List Nat))
    (t : Transport) : Except Fault Unit × Transport :=
  if CmdType.ERASE ∉ cmd_types then (.error (.capabilityMissing .ERASE), t)
  else Connection.erase pages t

/-- Client.execute: requires the EXECUTE capability, then delegates. -/
def Client.execute (cmd_types : List CmdType) (start_address : Nat)
    (t : Transport) : Except Fault Unit × Transport :=
  if CmdType.EXECUTE ∉ cmd_types then (.error (.capabilityMissing .EXECUTE), t)
  else Connection.execute start_address t

/-- The sequence of (address, data) arguments that the loop of
Client.write passes to Connection.write, in call order. -/
def writeSegments (start_address : Nat) (data : List Nat) :
    List (Nat × List Nat) :=
  if data.length = 0 then []
  else
    (start_address, data.take (min data.length 0x100)) ::
      writeSegments (start_address + min data.length 0x100)
        (data.drop (min data.length 0x100))
termination_by data.length
decreasing_by simp; omega

/-- The sequence of (address, size) arguments that the loop of
Client.read passes to Connection.read, in call order. -/
def readSegments (start_address size : Nat) : List (Nat × Nat) :=
  if size = 0 then []
  else
    (start_address, min size 0x100) ::
      readSegments (start_address + min size 0x100) (size - min size 0x100)
termination_by size
decreasing_by omega

/-- The buffer Client.read assembles over a device whose memory is mem:
the concatenation, in order, of the per-segment wire reads, each segment
read returning the memory bytes of its own (address, size) range. -/
def chunkedReadResult (mem : Nat → Nat) (address size : Nat) : List Nat :=
  ((readSegments address size).map
    (fun seg => (List.range seg.2).map (fun i => mem (seg.1 + i)))).flatten

/-- Specification-side definition, following the spec wording of the
round-trip chunking property: a naive single-shot read of the whole
range in one piece. -/
def naiveSingleShotRead (mem : Nat → Nat) (address size : Nat) : List Nat :=
  (List.range size).map (fun i => mem (address + i))

set_option maxRecDepth 4096 in
theorem xor_255_eq_sub (b : Nat) (hb : b < 256) : 255 ^^^ b = 255 - b := by
  have h : ∀ x, x < 256 → 255 ^^^ x = 255 - x := by decide
  exact h b hb

theorem foldl_xor_masked (data : List Nat) (acc : Nat) (hacc : acc < 256)
    (hb : ∀ b ∈ data, b < 256) :
    data.foldl (fun crc i => (crc ^^^ i) % 256) acc =
      data.foldl (fun crc i => crc ^^^ i) acc
    ∧ data.foldl (fun crc i => crc ^^^ i) acc < 256 := by
  induction data generalizing acc with
  | nil => exact ⟨rfl, hacc⟩
  | cons b bs ih =>
    have hblt : b < 256 := hb b (List.mem_cons_self b bs)
    have hx : acc ^^^ b < 256 := by
      have h := Nat.xor_lt_two_pow (n := 8) (x := acc) (y := b)
      norm_num at h
      exact h hacc hblt
    have hmod : (acc ^^^ b) % 256 = acc ^^^ b := Nat.mod_eq_of_lt hx
    have ihh := ih (acc ^^^ b) hx (fun x hx2 => hb x (List.mem_cons_of_mem b hx2))
    simp only [List.foldl_cons, hmod]
    exact ihh

/-- C1: for every non-empty body of bytes, the transmitted frame is the
body followed by exactly one checksum byte; the checksum is the XOR of
all body bytes (masked to 8 bits), except that for a single-byte body it
is the bitwise complement of that byte. -/
theorem frame_is_body_with_checksum (data : List Nat) (hne : data ≠ [])
    (hb : ∀ b ∈ data, b < 256) :
    _get_data_with_checksum data =
      .ok (data ++ [match data with
                    | [b] => 255 - b
                    | _ => data.foldl (fun a b => a ^^^ b) 0 % 256]) := by
  have hlen : ¬ data.length < 1 := by
    cases data with
    | nil => exact absurd rfl hne
    | cons b bs => simp
  have hsum : checksum8 data = (match data with
      | [b] => 255 - b
      | _ => data.foldl (fun a b => a ^^^ b) 0 % 256) := by
    cases data with
    | nil => exact absurd rfl hne
    | cons b bs =>
      cases bs with
      | nil =>
        have hblt : b < 256 := hb b (by simp)
        show checksum8 [b] = 255 - b
        simp only [checksum8, List.foldl_cons, List.foldl_nil, Nat.zero_xor,
          List.length_cons, List.length_nil]
        rw [if_pos (by omega), Nat.mod_eq_of_lt hblt]
        exact xor_255_eq_sub b hblt
      | cons c cs =>
        show checksum8 (b :: c :: cs) =
          (b :: c :: cs).foldl (fun a b => a ^^^ b) 0 % 256
        have hfold := foldl_xor_masked (b :: c :: cs) 0 (by omega) hb
        simp only [checksum8, List.length_cons]
        rw [if_neg (by omega), hfold.1, Nat.mod_eq_of_lt hfold.2]
  unfold _get_data_with_checksum
  rw [if_neg hlen, hsum]
  cases data with
  | nil => rfl
  | cons b bs => cases bs <;> rfl

/-- Witness for C1: the frame for the single-byte body 0x43 carries the
complement checksum 0xBC. -/
theorem frame_is_body_with_checksum_witness :
    (([0x43] : List Nat) ≠ [] ∧ ∀ b ∈ ([0x43] : List Nat), b < 256) ∧
    _get_data_with_checksum [0x43] = .ok [0x43, 0xBC] :=
  ⟨⟨by decide, by decide⟩,
   frame_is_body_with_checksum [0x43] (by decide) (by decide)⟩

/-- C6: receive_ack consumes exactly one input byte and leaves the sent
bytes untouched; it succeeds silently on 0x79, fails with the NACK fault
on 0x1F, and fails with the unknown-response fault carrying the byte on
anything else. -/
theorem receive_ack_one_byte (b : Nat) (rest sent0 : List Nat) :
    _receive_ack ⟨b :: rest, sent0⟩ =
      (if b = 0x1F then (.error .nack, (⟨rest, sent0⟩ : Transport))
       else if b = 0x79 then (.ok (), (⟨rest, sent0⟩ : Transport))
       else (.error (.unknownResponse b), (⟨rest, sent0⟩ : Transport))) := by
  simp only [_receive_ack, Transport.read, takeExact, Option.map]
  by_cases h1 : b = 0x1F
  · subst h1; simp
  · by_cases h2 : b = 0x79
    · subst h2; simp
    · simp [h1, h2]

/-- C7: erase with an explicit page list of zero pages or of more than
255 pages fails with the invalid-argument fault and returns the
transport unchanged, so no byte is written. -/
theorem erase_page_count_bounds (ps : List Nat) (t : Transport)
    (h : ps.length = 0 ∨ 255 < ps.length) :
    Connection.erase (some ps) t = (.error .invalidArgument, t) := by
  simp only [Connection.erase]
  rw [if_pos (by omega)]

/-- Witness for C7: erase with the empty page list fails at once. -/
theorem erase_page_count_bounds_witness :
    (([] : List Nat).length = 0 ∨ 255 < ([] : List Nat).length) ∧
    Connection.erase (some []) ⟨[], []⟩ = (.error .invalidArgument, ⟨[], []⟩) :=
  ⟨Or.inl rfl, erase_page_count_bounds [] ⟨[], []⟩ (Or.inl rfl)⟩

/-- C2: every high-level client operation whose required command type is
absent from the discovered capability set fails with the
capability-missing fault naming that command type and returns the
transport unchanged, so the capability check happens before any byte is
written: get_info (both of its required capabilities, checked in source
order), set_protection (the capability matching the kind), read, write,
erase and execute. -/
theorem capability_gating (cmd_types : List CmdType) (version : Nat)
    (t : Transport) :
    (CmdType.GET_CHIP_ID ∉ cmd_types →
      Client.get_info cmd_types version t =
        (.error (.capabilityMissing .GET_CHIP_ID), t))
    ∧ (CmdType.GET_CHIP_ID ∈ cmd_types → CmdType.READ ∉ cmd_types →
        Client.get_info cmd_types version t =
          (.error (.capabilityMissing .READ), t))
    ∧ (CmdType.PROTECT_READ ∉ cmd_types →
        Client.set_protection cmd_types .PROTECT_READ t =
          (.error (.capabilityMissing .PROTECT_READ), t))
    ∧ (CmdType.UNPROTECT_READ ∉ cmd_types →
        Client.set_protection cmd_types .UNPROTECT_READ t =
          (.error (.capabilityMissing .UNPROTECT_READ), t))
    ∧ (CmdType.PROTECT_WRITE ∉ cmd_types →
        Client.set_protection cmd_types .PROTECT_WRITE t =
          (.error (.capabilityMissing .PROTECT_WRITE), t))
    ∧ (CmdType.UNPROTECT_WRITE ∉ cmd_types →
        Client.set_protection cmd_types .UNPROTECT_WRITE t =
          (.error (.capabilityMissing .UNPROTECT_WRITE), t))
    ∧ (∀ a n progress, CmdType.READ ∉ cmd_types →
        Client.read cmd_types a n progress t =
          (.error (.capabilityMissing .READ), t, []))
    ∧ (∀ a d progress, CmdType.WRITE ∉ cmd_types →
        Client.write cmd_types a d progress t =
          (.error (.capabilityMissing .WRITE), t, []))
    ∧ (∀ ps, CmdType.ERASE ∉ cmd_types →
        Client.erase cmd_types ps t = (.error (.capabilityMissing .ERASE), t))
    ∧ (∀ a, CmdType.EXECUTE ∉ cmd_types →
        Client.execute cmd_types a t =
          (.error (.capabilityMissing .EXECUTE), t)) := by
  refine ⟨?_, ?_, ?_, ?_, ?_, ?_, ?_, ?_, ?_, ?_⟩ <;> intros <;>
    simp_all [Client.get_info, Client.set_protection, Client.read,
      Client.write, Client.erase, Client.execute]

/-- Witness for C2: with an empty capability set each operation fails
with its capability-missing fault on an untouched transport. -/
theorem capability_gating_witness :
    Client.get_info [] 0 ⟨[], []⟩ =
      (.error (.capabilityMissing .GET_CHIP_ID), ⟨[], []⟩)
    ∧ Client.set_protection [] .PROTECT_READ ⟨[], []⟩ =
      (.error (.capabilityMissing .PROTECT_READ), ⟨[], []⟩)
    ∧ Client.read [] 0 5 true ⟨[], []⟩ =
      (.error (.capabilityMissing .READ), ⟨[], []⟩, [])
    ∧ Client.write [] 0 [1] true ⟨[], []⟩ =
      (.error (.capabilityMissing .WRITE), ⟨[], []⟩, [])
    ∧ Client.erase [] none ⟨[], []⟩ =
      (.error (.capabilityMissing .ERASE), ⟨[], []⟩)
    ∧ Client.execute [] 0 ⟨[], []⟩ =
      (.error (.capabilityMissing .EXECUTE), ⟨[], []⟩) :=
  ⟨(capability_gating [] 0 ⟨[], []⟩).1 (by decide),
   (capability_gating [] 0 ⟨[], []⟩).2.2.1 (by decide),
   (capability_gating [] 0 ⟨[], []⟩).2.2.2.2.2.2.1 0 5 true (by decide),
   (capability_gating [] 0 ⟨[], []⟩).2.2.2.2.2.2.2.1 0 [1] true (by decide),
   (capability_gating [] 0 ⟨[], []⟩).2.2.2.2.2.2.2.2.1 none (by decide),
   (capability_gating [] 0 ⟨[], []⟩).2.2.2.2.2.2.2.2.2 0 (by decide)⟩

/-- C9 (amended): set_protection with the protect-write kind always
fails and never touches the transport, but the fault kind depends on the
capability set: the not-supported fault (the wire operation is
recognized but unimplemented) when PROTECT_WRITE is advertised, and the
capability-missing fault when it is absent. -/
theorem protect_write_always_fails (cmd_types : List CmdType) (t : Transport) :
    Client.set_protection cmd_types .PROTECT_WRITE t =
      (.error (if CmdType.PROTECT_WRITE ∈ cmd_types then .notSupported
               else .capabilityMissing .PROTECT_WRITE), t) := by
  simp only [Client.set_protection, Connection.protect_write]
  by_cases h : CmdType.PROTECT_WRITE ∈ cmd_types
  · simp [h]
  · simp [h]

/-- Counterexample for C9 as stated: with an empty capability set the
protect-write failure is the capability-missing fault, which is not the
not-supported fault, so the fault kind is not independent of the
capability set. -/
theorem protect_write_counterexample :
    Client.set_protection [] .PROTECT_WRITE ⟨[], []⟩ =
      (.error (.capabilityMissing .PROTECT_WRITE), ⟨[], []⟩)
    ∧ Fault.capabilityMissing .PROTECT_WRITE ≠ Fault.notSupported :=
  ⟨rfl, by decide⟩

/-- Counterexample for C3 as stated: erase with pages = none does not
transmit a single frame whose body is the opcode byte followed by the
sentinel byte (which would put the bytes 0x43 0xFF 0xBC on the wire); it
transmits the opcode frame and the sentinel frame separately, so the
wire carries 0x43 0xBC 0xFF 0x00. -/
theorem erase_all_two_frames_counterexample :
    (Connection.erase none ⟨[0x79, 0x79], []⟩).2.sent = [0x43, 0xBC, 0xFF, 0x00]
    ∧ ([0x43, 0xBC, 0xFF, 0x00] : List Nat) ≠ [0x43, 0xFF, 0xBC] :=
  ⟨rfl, by decide⟩

/-- C3 (amended): erase with pages = none sends two checksummed frames,
the opcode-only frame (body 0x43, checksum byte appended) and then the
sentinel-all frame (body 0xFF), each followed by an ACK; erase with an
explicit list of 1..255 pages sends the opcode frame and then one frame
whose body is the count-minus-one byte followed by the page bytes. -/
theorem erase_frames (input0 sent0 rest ps : List Nat)
    (hin : input0 = 0x79 :: 0x79 :: rest)
    (h1 : 1 ≤ ps.length) (h2 : ps.length ≤ 0xFF) :
    Connection.erase none ⟨input0, sent0⟩ =
      (.ok (), ⟨rest, sent0 ++ ([0x43] ++ [checksum8 [0x43]])
        ++ ([0xFF] ++ [checksum8 [0xFF]])⟩)
    ∧ Connection.erase (some ps) ⟨input0, sent0⟩ =
      (.ok (), ⟨rest, sent0 ++ ([0x43] ++ [checksum8 [0x43]])
        ++ (((ps.length - 1) :: ps) ++ [checksum8 ((ps.length - 1) :: ps)])⟩) := by
  subst hin
  constructor
  · simp [Connection.erase, CmdType.val, _send, _get_data_with_checksum,
      checksum8, _receive_ack, Transport.write, Transport.read, takeExact]
  · simp only [Connection.erase]
    rw [if_neg (by omega)]
    simp [CmdType.val, _send, _get_data_with_checksum, _receive_ack,
      Transport.write, Transport.read, takeExact]

/-- Witness for C3: erase-all and a one-page erase on a transport with
two ACKs queued. -/
theorem erase_frames_witness :
    ((1 : Nat) ≤ ([5] : List Nat).length ∧ ([5] : List Nat).length ≤ 0xFF)
    ∧ Connection.erase none ⟨[0x79, 0x79], []⟩ =
      (.ok (), ⟨[], [0x43, 0xBC, 0xFF, 0x00]⟩)
    ∧ Connection.erase (some [5]) ⟨[0x79, 0x79], []⟩ =
      (.ok (), ⟨[], [0x43, 0xBC, 0x00, 0x05, 0x05]⟩) :=
  ⟨⟨by decide, by decide⟩,
   (erase_frames [0x79, 0x79] [] [] [5] rfl (by decide) (by decide)).1,
   (erase_frames [0x79, 0x79] [] [] [5] rfl (by decide) (by decide)).2⟩

theorem writeSegments_nil (a : Nat) : writeSegments a [] = [] := by
  rw [writeSegments]
  norm_num

theorem range_map_succ_shift {α : Type} (f : Nat → α) (m : Nat) :
    (List.range (m + 1)).map f = f 0 :: (List.range m).map (fun k => f (k + 1)) := by
  rw [List.range_succ_eq_map, List.map_cons, List.map_map]
  exact rfl

theorem writeSegments_eq_range (n : Nat) : ∀ d : List Nat, d.length ≤ n →
    ∀ a, writeSegments a d =
      (List.range ((d.length + 255) / 256)).map
        (fun k => (a + 256 * k, (d.drop (256 * k)).take 256)) := by
  induction n with
  | zero =>
    intro d hd a
    have hnil : d = [] := List.eq_nil_of_length_eq_zero (by omega)
    subst hnil
    simp [writeSegments_nil]
  | succ n ih =>
    intro d hd a
    by_cases h0 : d.length = 0
    · have hnil : d = [] := List.eq_nil_of_length_eq_zero h0
      subst hnil
      simp [writeSegments_nil]
    · rw [writeSegments, if_neg h0]
      by_cases hle : d.length ≤ 0x100
      · have hmin : min d.length 0x100 = d.length := by omega
        have hceil : (d.length + 255) / 256 = 1 := by omega
        rw [hmin, List.drop_length, writeSegments_nil, hceil]
        simp [List.range_succ, List.take_of_length_le hle, List.take_length]
      · have hmin : min d.length 0x100 = 0x100 := by omega
        have hlen2 : (d.drop 0x100).length = d.length - 0x100 := by simp
        have hceil : (d.length + 255) / 256 =
            ((d.drop 0x100).length + 255) / 256 + 1 := by
          rw [hlen2]; omega
        rw [hmin, ih (d.drop 0x100) (by rw [hlen2]; omega) (a + 0x100), hceil,
          range_map_succ_shift]
        refine List.cons_eq_cons.mpr ⟨by simp, List.map_congr_left (fun k hk => ?_)⟩
        have e1 : 0x100 + 256 * k = 256 * (k + 1) := by ring
        simp only [List.drop_drop, Prod.mk.injEq]
        exact ⟨by omega, by rw [e1]⟩

theorem writeSegments_flatten (n : Nat) : ∀ d : List Nat, d.length ≤ n →
    ∀ a, ((writeSegments a d).map Prod.snd).flatten = d := by
  induction n with
  | zero =>
    intro d hd a
    have hnil : d = [] := List.eq_nil_of_length_eq_zero (by omega)
    subst hnil
    simp [writeSegments_nil]
  | succ n ih =>
    intro d hd a
    by_cases h0 : d.length = 0
    · have hnil : d = [] := List.eq_nil_of_length_eq_zero h0
      subst hnil
      simp [writeSegments_nil]
    · rw [writeSegments, if_neg h0]
      simp only [List.map_cons, List.flatten_cons]
      rw [ih (d.drop (min d.length 0x100)) (by simp; omega)
        (a + min d.length 0x100)]
      exact List.take_append_drop _ _

/-- C4: the loop of Client.write issues exactly ceil(N/256) wire write
commands for N data bytes, each carrying at most 256 bytes, the
segments taken from the data in order (they concatenate back to it),
the k-th segment addressed at A + 256 * k (A plus the bytes already
written) and carrying the k-th 256-byte slice; in particular a write of
300 bytes produces exactly two wire writes, 256 bytes at A and the
remaining 44 bytes at A + 0x100. -/
theorem write_segmentation (a : Nat) (d : List Nat) :
    (writeSegments a d).length = (d.length + 255) / 256
    ∧ (∀ p ∈ writeSegments a d, p.2.length ≤ 256)
    ∧ ((writeSegments a d).map Prod.snd).flatten = d
    ∧ writeSegments a d =
        (List.range ((d.length + 255) / 256)).map
          (fun k => (a + 256 * k, (d.drop (256 * k)).take 256))
    ∧ (d.length = 300 →
        writeSegments a d = [(a, d.take 256), (a + 256, d.drop 256)]) := by
  have hmaster := writeSegments_eq_range d.length d (le_refl _) a
  refine ⟨?_, ?_, writeSegments_flatten d.length d (le_refl _) a, hmaster, ?_⟩
  · rw [hmaster]; simp
  · rw [hmaster]
    intro p hp
    simp only [List.mem_map, List.mem_range] at hp
    obtain ⟨k, _, hpk⟩ := hp
    rw [← hpk]
    simp only [List.length_take]
    omega
  · intro h300
    rw [hmaster, h300]
    have htake : (d.drop 256).take 256 = d.drop 256 :=
      List.take_of_length_le (by simp [h300])
    norm_num [List.range_succ, htake]

set_option maxRecDepth 8192 in
/-- Witness for C4 at a 300-byte input: exactly the two wire writes of
the scenario. -/
theorem write_segmentation_witness :
    (List.replicate 300 7).length = 300
    ∧ writeSegments 0x08000000 (List.replicate 300 7) =
        [(0x08000000, (List.replicate 300 7).take 256),
         (0x08000100, (List.replicate 300 7).drop 256)] :=
  ⟨by simp,
   (write_segmentation 0x08000000 (List.replicate 300 7)).2.2.2.2 (by simp)⟩

theorem readSegments_nil (a : Nat) : readSegments a 0 = [] := by
  rw [readSegments]
  norm_num

/-- C5: the chunked client read — consecutive segments of at most 256
bytes starting at the address, one wire read per segment, per-segment
results concatenated in order — returns a buffer byte-identical to a
naive single-shot read of the same range, for every device memory,
address and size, multiples and non-multiples of 256 alike. -/
theorem chunked_read_eq_naive (mem : Nat → Nat) (address size : Nat) :
    chunkedReadResult mem address size =
      naiveSingleShotRead mem address size := by
  induction size using Nat.strong_induction_on generalizing address with
  | _ size ih =>
    by_cases h0 : size = 0
    · subst h0
      simp [chunkedReadResult, readSegments_nil, naiveSingleShotRead]
    · have hstep : chunkedReadResult mem address size =
          (List.range (min size 0x100)).map (fun i => mem (address + i))
            ++ chunkedReadResult mem (address + min size 0x100)
                (size - min size 0x100) := by
        rw [chunkedReadResult, readSegments, if_neg h0]
        simp [chunkedReadResult]
      have hsplit : ∀ s r, size = s + r →
          naiveSingleShotRead mem address size =
            (List.range s).map (fun i => mem (address + i))
              ++ naiveSingleShotRead mem (address + s) r := by
        intro s r hsr
        unfold naiveSingleShotRead
        rw [hsr, List.range_add, List.map_append, List.map_map]
        congr 1
        apply List.map_congr_left
        intro i hi
        simp [Nat.add_assoc]
      rw [hstep, ih (size - min size 0x100) (by omega) (address + min size 0x100),
        hsplit (min size 0x100) (size - min size 0x100) (by omega)]

/-- C10: Client.read with size 0 and the READ capability present issues
no wire command and writes no byte (the transport comes back unchanged),
returns the empty buffer, and invokes a supplied progress callback
exactly once, with arguments (0, 0). -/
theorem read_size_zero (cmd_types : List CmdType) (a : Nat) (t : Transport)
    (h : CmdType.READ ∈ cmd_types) :
    Client.read cmd_types a 0 true t = (.ok [], t, [(0, 0)]) := by
  simp only [Client.read]
  rw [if_neg (not_not_intro h), Client.readLoop]
  simp

/-- Witness for C10 on a device advertising READ. -/
theorem read_size_zero_witness :
    CmdType.READ ∈ [CmdType.READ]
    ∧ Client.read [CmdType.READ] 0x08000000 0 true ⟨[], []⟩ =
        (.ok [], ⟨[], []⟩, [(0, 0)]) :=
  ⟨by decide, read_size_zero [CmdType.READ] 0x08000000 ⟨[], []⟩ (by decide)⟩

set_option maxRecDepth 16384 in
/-- C8: get_info reads the 2-byte flash-size register at the fixed
address 0x1FFFF7E0 (visible on the wire as the read sequence 0x11 0xEE,
the address frame 0x1F 0xFF 0xF7 0xE0 with checksum 0xF7, and the
size-minus-one frame 0x01 0xFE), interprets the two raw register bytes
b0 b1 little-endian and multiplies by 1024; on a device advertising
GET_CHIP_ID and READ whose register bytes are 0x00 0x04, the returned
flash_size is 1048576. -/
theorem get_info_flash_size (b0 b1 ver : Nat) (rest : List Nat) :
    Client.get_info [CmdType.GET_CHIP_ID, CmdType.READ] ver
      ⟨[0x79, 0x01, 0x04, 0x10, 0x79,
        0x79, 0x79, 0x79, 0, 0, 0, 0, 0, 0, 0, 0, 0, 0, 0, 0,
        0x79, 0x79, 0x79, b0, b1] ++ rest, []⟩ =
      (.ok ⟨ver, 0x0410, [0, 0, 0, 0, 0, 0, 0, 0, 0, 0, 0, 0],
        (b0 + 256 * b1) * 1024⟩,
       ⟨rest, [0x02, 0xFD,
               0x11, 0xEE, 0x1F, 0xFF, 0xF7, 0xE8, 0xFF, 0x0B, 0xF4,
               0x11, 0xEE, 0x1F, 0xFF, 0xF7, 0xE0, 0xF7, 0x01, 0xFE]⟩)
    ∧ (Client.get_info [CmdType.GET_CHIP_ID, CmdType.READ] ver
        ⟨[0x79, 0x01, 0x04, 0x10, 0x79,
          0x79, 0x79, 0x79, 0, 0, 0, 0, 0, 0, 0, 0, 0, 0, 0, 0,
          0x79, 0x79, 0x79, 0x00, 0x04] ++ rest, []⟩).1 =
      .ok ⟨ver, 0x0410, [0, 0, 0, 0, 0, 0, 0, 0, 0, 0, 0, 0], 1048576⟩ := by
  constructor
  · simp [Client.get_info, Connection.get_chip_id, Connection.read, _send,
      _get_data_with_checksum, checksum8, _receive_ack, Transport.read,
      Transport.write, takeExact, u32be, intFromBytesBE, unpackLE16, CmdType.val]
  · simp [Client.get_info, Connection.get_chip_id, Connection.read, _send,
      _get_data_with_checksum, checksum8, _receive_ack, Transport.read,
      Transport.write, takeExact, u32be, intFromBytesBE, unpackLE16, CmdType.val]

end Stm32ctl
